import Mathlib

/-
Verification of the autocxx analysis core (engine/src/types.rs,
engine/src/conversion/analysis/pod/mod.rs, engine/src/conversion/analysis/tdef.rs,
engine/src/conversion/convert_error.rs, parser/src/config.rs) against its
natural-language specification.

The development is a shallow embedding: Rust data types become Lean inductive
types and structures, Rust functions become Lean functions (fallible Rust
functions return Except; a Rust panic / unreachable site is modelled as an
Option none), and HashSet-valued state becomes Finset.  Collaborator modules of
the repository whose sources are not available (byvalue_checker.rs,
type_converter.rs, bridge_name_tracker.rs, api.rs, error_reporter.rs,
codegen_rs's make_non_pod, analysis/mod.rs's remove_bindgen_attrs,
known_types.rs) are modelled from the specification; each such definition says
so in its doc comment.
-/

set_option linter.unusedVariables false

/-! ## Name model (engine/src/types.rs) -/

/-- A C++ namespace: an ordered sequence of path segments.  The source wraps
an `Arc<Vec<String>>`; structurally it is a list of strings. -/
abbrev Namespace := List String

/-- A namespace plus a final segment name; the canonical identity of every
entity (`QualifiedName` in types.rs). -/
structure QualifiedName where
  ns : Namespace
  final : String
deriving DecidableEq

/-- One path of a `syn::TypePath`: the identifiers of its segments. -/
structure TypePath where
  segments : List String
deriving DecidableEq

/-- `QualifiedName::from_segments`: all but the last segment become the
namespace, the last segment becomes the leaf.  The Rust loop ends in
`unreachable!()` when the iterator is empty; that panic is modelled as
`none`. -/
def QualifiedName.from_segments : List String → Option QualifiedName
  | [] => none
  | [s] => some ⟨[], s⟩
  | s :: s' :: rest =>
    (QualifiedName.from_segments (s' :: rest)).map fun q => ⟨s :: q.ns, q.final⟩

/-- `QualifiedName::from_type_path`: strips a leading `root` segment (the
bindgen root marker) and delegates to `from_segments`.  The `.unwrap()` on an
empty segment list is modelled as `none`. -/
def QualifiedName.from_type_path (typ : TypePath) : Option QualifiedName :=
  match typ.segments with
  | [] => none
  | first :: rest =>
    if first = "root" then QualifiedName.from_segments rest
    else QualifiedName.from_segments (first :: rest)

/-- Split a string on `::` exactly as Rust's `str::split("::")` does: the
empty string yields one empty segment, a trailing `::` yields a trailing empty
segment, and matches are found left to right. -/
def splitSegsAux : List Char → List Char → List String
  | [], acc => [String.mk acc.reverse]
  | ':' :: ':' :: rest, acc => String.mk acc.reverse :: splitSegsAux rest []
  | c :: rest, acc => splitSegsAux rest (c :: acc)

/-- The list of `::`-separated segments of a piece of user text. -/
def splitCpp (s : String) : List String := splitSegsAux s.data []

/-- `QualifiedName::new_from_cpp_name`: split the user text on `::`; every
non-last segment that is non-empty is pushed onto the namespace, and the last
segment becomes the leaf (with no emptiness check on the leaf). -/
def QualifiedName.new_from_cpp_name (id : String) : QualifiedName :=
  let segs := splitCpp id
  ⟨segs.dropLast.filter (fun s => ¬ s.isEmpty), segs.getLastD ""⟩

/-- `QualifiedName::new`: an explicit namespace plus a leaf identifier. -/
def QualifiedName.new (ns : Namespace) (id : String) : QualifiedName := ⟨ns, id⟩

/-! ## Errors (engine/src/conversion/convert_error.rs) -/

/-- The `ConvertError` enum, variant for variant.  `syn::Ident` payloads are
modelled as strings. -/
inductive ConvertError where
  | NoContent
  | UnsafePodType (err : String)
  | UnexpectedForeignItem
  | UnexpectedOuterItem
  | UnexpectedItemInMod
  | ComplexTypedefTarget (ty : String)
  | UnexpectedThisType (ns : Namespace) (fn_name : String)
  | UnsupportedBuiltInType (ty : QualifiedName)
  | VirtualThisType (ns : Namespace) (fn_name : String)
  | ConflictingTemplatedArgsWithTypedef (tn : QualifiedName)
  | UnacceptableParam (fn_name : String)
  | NotOneInputReference (fn_name : String)
  | UnsupportedType (ty_desc : String)
  | UnknownType (ty_desc : String)
  | StaticData (ty_desc : String)
  | InfinitelyRecursiveTypedef (tn : QualifiedName)
  | UnexpectedUseStatement (maybe_ident : Option String)
  | TemplatedTypeContainingNonPathArg (tn : QualifiedName)
  | InvalidPointee
  | DidNotGenerateAnything (directive : String)
  | TypeContainingForwardDeclaration (tn : QualifiedName)
  | Blocked (tn : QualifiedName)
  | UnusedTemplateParam
  | TooManyUnderscores
  | ReservedName
  | UnknownDependentType
  | IgnoredDependent
  | MoveConstructorUnsupported
deriving DecidableEq

/-- The `ErrorContext` enum: the identity a diagnostic is reported against. -/
inductive ErrorContext where
  | Item (id : String)
  | Method (self_ty : String) (method : String)
deriving DecidableEq

/-- `ConvertErrorWithContext`: an error plus an optional reporting context. -/
structure ConvertErrorWithContext where
  err : ConvertError
  ctx : Option ErrorContext
deriving DecidableEq

/-! ## Identifier validation (engine/src/types.rs) -/

/-- Whether a character list contains two consecutive underscores; models
Rust's `id.contains("__")`. -/
def hasDoubleUnderscore : List Char → Bool
  | [] => false
  | '_' :: '_' :: _ => true
  | _ :: rest => hasDoubleUnderscore rest

/-- The `RESERVED_NAMES` table: names acceptable in C++ but not Rust. -/
def RESERVED_NAMES : List String := ["move", "ref", "async", "await"]

/-- `validate_ident_ok_for_rust`: reject exactly the reserved names. -/
def validate_ident_ok_for_rust (id : String) : Except ConvertError Unit :=
  if id ∈ RESERVED_NAMES then .error .ReservedName else .ok ()

/-- `validate_ident_ok_for_cxx`: first the Rust check, then reject double
underscores. -/
def validate_ident_ok_for_cxx (id : String) : Except ConvertError Unit :=
  match validate_ident_ok_for_rust id with
  | .error e => .error e
  | .ok _ =>
    if hasDoubleUnderscore id.data then .error .TooManyUnderscores else .ok ()

/-! ## Configuration (parser/src/config.rs) -/

/-- The `UnsafePolicy` enum of the safety directive. -/
inductive UnsafePolicy where
  | AllFunctionsSafe
  | AllFunctionsUnsafe
deriving DecidableEq

/-- The `Allowlist` enum: not yet specified, generate-all, or a specific list. -/
inductive Allowlist where
  | Unspecified
  | All
  | Specific (items : List String)
deriving DecidableEq

/-- `IncludeCppConfig`.  The field the source calls `unsafe_policy` is named
`safety_policy` here; `mod_name : Option<Ident>` is `Option String`. -/
structure IncludeCppConfig where
  inclusions : List String
  safety_policy : UnsafePolicy
  parse_only : Bool
  pod_requests : List String
  allowlist : Allowlist
  blocklist : List String
  exclude_utilities : Bool
  mod_name : Option String
deriving DecidableEq

/-- `IncludeCppConfig::get_makestring_name`. -/
def IncludeCppConfig.get_makestring_name (c : IncludeCppConfig) : String :=
  "autocxx_make_string_" ++ c.mod_name.getD "default"

/-- `IncludeCppConfig::active_utilities`. -/
def IncludeCppConfig.active_utilities (c : IncludeCppConfig) : List String :=
  if c.exclude_utilities then [] else [c.get_makestring_name]

/-- `IncludeCppConfig::bindgen_allowlist`.  The source's return type is
`Option<iterator>`; None there (meaning: no filtering, everything allowed) is
the inner `none` here.  The `Allowlist::Unspecified` arm is `unreachable!()`
in the source; that panic is modelled as the outer `none`. -/
def IncludeCppConfig.bindgen_allowlist (c : IncludeCppConfig) :
    Option (Option (List String)) :=
  match c.allowlist with
  | .All => some none
  | .Specific items => some (some (items ++ c.pod_requests ++ c.active_utilities))
  | .Unspecified => none

/-- `IncludeCppConfig::is_on_allowlist`.  The outer `none` models the panic
propagated from `bindgen_allowlist` on an unspecified allowlist. -/
def IncludeCppConfig.is_on_allowlist (c : IncludeCppConfig) (cpp_name : String) :
    Option Bool :=
  match c.bindgen_allowlist with
  | none => none
  | some none => some true
  | some (some items) =>
    some (items.contains cpp_name || c.active_utilities.contains cpp_name)

/-- `IncludeCppConfig::is_on_blocklist`. -/
def IncludeCppConfig.is_on_blocklist (c : IncludeCppConfig) (cpp_name : String) : Bool :=
  c.blocklist.contains cpp_name

/-! ## Surface types (subset of syn used by the analysis) -/

/-- The subset of `syn::Type` the analysis inspects: a plain path type, a
templated path type (a path with one generic argument), a pointer, and a
catch-all for every other form. -/
inductive RType where
  | path (typ : TypePath)
  | templated (typ : TypePath) (arg : RType)
  | pointer (pointee : RType)
  | other
deriving DecidableEq

/-- A struct field: optional identifier plus its type. -/
structure StructField where
  ident : Option String
  ty : RType
deriving DecidableEq

/-- A `syn::ItemStruct` as the analysis sees it.  The flag
`has_destructor_or_virtual` is modelled from the spec: whether the parser
found a user-defined destructor, virtual functions/bases, or non-trivial
copy/move semantics on this type — the information the by-value-safety
classifier (byvalue_checker.rs, not under src/) extracts. -/
structure ItemStruct where
  ident : String
  attrs : List String
  has_destructor_or_virtual : Bool
  fields : List StructField
deriving DecidableEq

/-- A `syn::ItemEnum`: identifier and attributes. -/
structure ItemEnum where
  ident : String
  attrs : List String
deriving DecidableEq

/-- A `syn::ItemType` (a typedef item): identifier, attributes, target type. -/
structure ItemType where
  ident : String
  attrs : List String
  ty : RType
deriving DecidableEq

/-! ## Entity model (conversion/api.rs, not under src/; modelled from the
spec's closed list of entity variants and the uses in pod/mod.rs and
tdef.rs) -/

/-- `TypedefKind`: a typedef arising from a `type` item or a `use` item. -/
inductive TypedefKind where
  | Type (ity : ItemType)
  | Use
deriving DecidableEq

/-- `TypeKind`: the POD classification recorded for a struct. -/
inductive TypeKind where
  | Pod
  | NonPod
deriving DecidableEq

/-- `PodStructAnalysisBody` (pod/mod.rs): classification plus base-class
set. -/
structure PodStructAnalysisBody where
  kind : TypeKind
  bases : Finset QualifiedName
deriving DecidableEq

/-- `ApiDetail`, parametrized by the struct-analysis payload of the phase
(`()` before POD analysis, `PodStructAnalysisBody` after), mirroring the
source's phase-indexed `ApiDetail<T: AnalysisPhase>`.  Function and constant
payloads are opaque strings. -/
inductive ApiDetail (S : Type) where
  | ConcreteType (rs_definition : String) (cpp_definition : String)
  | ForwardDeclaration
  | StringConstructor
  | Function (fun_item : String)
  | Const (const_item : String)
  | Typedef (item : TypedefKind) (analysis : TypedefKind)
  | CType (typename : QualifiedName)
  | Struct (item : ItemStruct) (analysis : S)
  | Enum (item : ItemEnum)
  | IgnoredItem (err : ConvertError) (ctx : ErrorContext)
deriving DecidableEq

/-- An API record: current name, original name if renamed, dependency set,
rename target, and the variant payload. -/
structure Api (S : Type) where
  name : QualifiedName
  original_name : Option String
  deps : Finset QualifiedName
  rename_to : Option String
  detail : ApiDetail S
deriving DecidableEq

/-- An entity that has not yet passed the POD analysis phase. -/
abbrev UnanalyzedApi := Api Unit

/-- Modelled from the spec: `add_analysis` (type_converter.rs, not under
src/) re-tags a newly synthesized raw entity as having completed the current
phase without changing its content. -/
def add_analysis (api : UnanalyzedApi) : UnanalyzedApi := api

/-! ## By-value-safety classifier (pod/byvalue_checker.rs, not under src/;
modelled from the spec) -/

/-- Modelled from the spec: the known built-in types that are safe to hold by
value (the known-types table of known_types.rs, not under src/). -/
def known_pod_safe : List QualifiedName :=
  [⟨[], "i8"⟩, ⟨[], "u8"⟩, ⟨[], "i16"⟩, ⟨[], "u16"⟩, ⟨[], "i32"⟩, ⟨[], "u32"⟩,
    ⟨[], "i64"⟩, ⟨[], "u64"⟩, ⟨[], "usize"⟩, ⟨[], "isize"⟩, ⟨[], "f32"⟩,
    ⟨[], "f64"⟩, ⟨[], "bool"⟩, ⟨[], "c_int"⟩, ⟨[], "c_uint"⟩, ⟨[], "c_char"⟩]

/-- The struct entity declared under a given qualified name, if any. -/
def find_struct (apis : List UnanalyzedApi) (q : QualifiedName) : Option ItemStruct :=
  apis.findSome? fun a =>
    match a.detail with
    | .Struct item _ => if a.name = q then some item else none
    | _ => none

/-- Modelled from the spec: by-value eligibility as a reachability check over
the contains-a-field-of-type relation — a type is eligible iff it is a known
safe built-in, or it is a declared struct with no destructor/virtual
members all of whose field types are themselves eligible (pointer fields are
always representable by value).  The fuel argument bounds the recursion; one
more than the number of entities suffices for any cycle-free input. -/
def pod_eligible_fuel : Nat → List UnanalyzedApi → QualifiedName → Bool
  | 0, _, _ => false
  | fuel + 1, apis, q =>
    if q ∈ known_pod_safe then true
    else
      match find_struct apis q with
      | none => false
      | some item =>
        !item.has_destructor_or_virtual &&
          item.fields.all fun f =>
            match f.ty with
            | .pointer _ => true
            | .path typ =>
              match QualifiedName.from_type_path typ with
              | some q' => pod_eligible_fuel fuel apis q'
              | none => false
            | _ => false

/-- By-value eligibility with the canonical fuel. -/
def pod_eligible (apis : List UnanalyzedApi) (q : QualifiedName) : Bool :=
  pod_eligible_fuel (apis.length + 1) apis q

/-- Modelled from the spec: the `ByValueChecker` retains what it needs to
answer `is_pod` queries for any type. -/
structure ByValueChecker where
  apis : List UnanalyzedApi

/-- `ByValueChecker::is_pod`: whether the named type was classified safe to
hold by value. -/
def ByValueChecker.is_pod (c : ByValueChecker) (q : QualifiedName) : Bool :=
  pod_eligible c.apis q

/-- Modelled from the spec: `ByValueChecker::new_from_apis` ingests the
entity list and then errs with `UnsafePodType` (naming the type) on the first
configuration `pod` request whose type the classifier finds ineligible. -/
def ByValueChecker.new_from_apis (apis : List UnanalyzedApi)
    (config : IncludeCppConfig) : Except ConvertError ByValueChecker :=
  match config.pod_requests.find?
      (fun r => !pod_eligible apis (QualifiedName.new_from_cpp_name r)) with
  | some r => .error (.UnsafePodType r)
  | none => .ok ⟨apis⟩

/-! ## Uniqueness allocator (bridge_name_tracker.rs, not under src/;
modelled from the spec) -/

/-- Modelled from the spec: the bridge name tracker holds the set of already
allocated flat boundary names. -/
structure BridgeNameTracker where
  allocated : List String
deriving DecidableEq

/-- `BridgeNameTracker::new`. -/
def BridgeNameTracker.new : BridgeNameTracker := ⟨[]⟩

/-- The first numeric-suffix variant of the candidate that is not yet
allocated; among `allocated.length + 1` distinct variants at least one is
free, so the fallback arm is dead. -/
def firstFreeName (allocated : List String) (candidate : String) : String :=
  match (List.range (allocated.length + 1)).find?
      (fun n => !(allocated.contains (candidate ++ toString (n + 1)))) with
  | some n => candidate ++ toString (n + 1)
  | none => candidate

/-- Modelled from the spec: `get_unique_cxx_bridge_name` reserves and returns
a free candidate unchanged, and otherwise appends a deterministic
incrementing suffix until free.  The `self_ty` and namespace arguments mirror
the source signature. -/
def BridgeNameTracker.get_unique_cxx_bridge_name (t : BridgeNameTracker)
    (self_ty : Option QualifiedName) (candidate : String) (ns : Namespace) :
    String × BridgeNameTracker :=
  if candidate ∈ t.allocated then
    let fresh := firstFreeName t.allocated candidate
    (fresh, ⟨fresh :: t.allocated⟩)
  else
    (candidate, ⟨candidate :: t.allocated⟩)

/-! ## Type conversion engine (analysis/type_converter.rs, not under src/;
modelled from the spec) -/

/-- The conversion context: the stricter boundary-inner-type context used for
struct fields and typedef targets, versus a bare outer context. -/
inductive TypeConversionContext where
  | CxxInnerType
  | CxxOuterType
deriving DecidableEq

/-- `Annotated`: a converted type plus the names it depends on and any
auxiliary entities synthesized along the way. -/
structure Annotated where
  ty : RType
  types_encountered : Finset QualifiedName
  extra_apis : List UnanalyzedApi
deriving DecidableEq

/-- A flat spelling for a type, used to name synthesized concretizations. -/
def type_flat_name : RType → String
  | .path typ => String.intercalate "_" typ.segments
  | .templated typ arg => String.intercalate "_" typ.segments ++ "_of_" ++ type_flat_name arg
  | .pointer p => "ptr_" ++ type_flat_name p
  | .other => "unknown"

/-- Modelled from the spec: the auxiliary entity synthesized for a generic
instantiation encountered during conversion is a concrete synthesized type
(`ConcreteType`). -/
def synthesized_concrete_api (typ : TypePath) (arg : RType) : UnanalyzedApi :=
  let flat := type_flat_name (.templated typ arg)
  ⟨⟨[], flat⟩, none, ∅, none, .ConcreteType flat flat⟩

/-- Modelled from the spec: `convert_type` resolves a surface type to a
boundary-representable type, records every `QualifiedName` encountered, and
synthesizes a `ConcreteType` auxiliary entity for each generic instantiation;
it fails on an empty path, a pointer to an unsupported pointee, and any
unsupported type form. -/
def convert_type : RType → Namespace → TypeConversionContext →
    Except ConvertError Annotated
  | .path typ, _, _ =>
    match QualifiedName.from_type_path typ with
    | none => .error (.UnsupportedType "empty type path")
    | some q => .ok ⟨.path typ, {q}, []⟩
  | .templated typ arg, ns, ctx =>
    match QualifiedName.from_type_path typ with
    | none => .error (.UnsupportedType "empty type path")
    | some q =>
      match convert_type arg ns ctx with
      | .error e => .error e
      | .ok annArg =>
        .ok ⟨.templated typ annArg.ty, insert q annArg.types_encountered,
          annArg.extra_apis ++ [synthesized_concrete_api typ annArg.ty]⟩
  | .pointer t, ns, ctx =>
    match t with
    | .other => .error .InvalidPointee
    | t =>
      match convert_type t ns ctx with
      | .error e => .error e
      | .ok annP => .ok ⟨.pointer annP.ty, annP.types_encountered, annP.extra_apis⟩
  | .other, _, _ => .error (.UnsupportedType "unsupported type form")

/-! ## POD analysis (conversion/analysis/pod/mod.rs) -/

/-- Modelled from the spec: `remove_bindgen_attrs` (analysis/mod.rs, not
under src/) strips the parser-inserted attributes from an item. -/
def remove_bindgen_attrs (attrs : List String) : Except ConvertError (List String) :=
  .ok (attrs.filter fun a => ¬ a.startsWith "bindgen_")

/-- Modelled from the spec: `make_non_pod` (codegen_rs, not under src/)
replaces a by-value-ineligible struct's fields with an opaque byte-compatible
placeholder. -/
def non_pod_placeholder_field : StructField := ⟨some "_opaque_data", .other⟩

/-- Replace every field of the struct with the opaque placeholder. -/
def make_non_pod (s : ItemStruct) : ItemStruct :=
  { s with fields := [non_pod_placeholder_field] }

/-- `get_bases` (pod/mod.rs): the path-typed fields whose identifier starts
with `_base` are base-class slots. -/
def get_bases (item : ItemStruct) : Finset QualifiedName :=
  (item.fields.filterMap fun f =>
    match f.ty, f.ident with
    | .path typ, some id =>
      if id.startsWith "_base" then QualifiedName.from_type_path typ else none
    | .templated typ _, some id =>
      if id.startsWith "_base" then QualifiedName.from_type_path typ else none
    | _, _ => none).toFinset

/-- The mutable state threaded through the POD analysis of one batch: the
auxiliary-entity queue and the bridge name tracker. -/
structure PodState where
  extra_apis : List UnanalyzedApi
  tracker : BridgeNameTracker
deriving DecidableEq

/-- `get_struct_field_types` (pod/mod.rs): walk each field's type through the
converter in the inner-type context, extending the dependency set with every
name encountered and queueing any synthesized auxiliary entities.  The second
component is the list of auxiliary entities accumulated, kept even when a
later field's conversion fails. -/
def get_struct_field_types (ns : Namespace) :
    List StructField → Finset QualifiedName →
    Except ConvertError (Finset QualifiedName) × List UnanalyzedApi
  | [], deps => (.ok deps, [])
  | f :: rest, deps =>
    match convert_type f.ty ns .CxxInnerType with
    | .error e => (.error e, [])
    | .ok ann =>
      let r := get_struct_field_types ns rest (deps ∪ ann.types_encountered)
      (r.1, ann.extra_apis ++ r.2)

/-- The rename bookkeeping shared by the `ForwardDeclaration` and `Struct`
arms of `analyze_pod_api`: allocate a unique bridge name for the candidate;
when it differs from the candidate, record the rename and (if not already
set) the original name. -/
def finish_renamed_api (api : UnanalyzedApi) (candidate : String) (ns : Namespace)
    (newdeps : Finset QualifiedName) (detail : ApiDetail PodStructAnalysisBody)
    (st : PodState) : Except ConvertError (Api PodStructAnalysisBody) × PodState :=
  let alloc := st.tracker.get_unique_cxx_bridge_name none candidate ns
  let rename_to : Option String := if alloc.1 = candidate then none else some candidate
  let original_name : Option String :=
    if alloc.1 = candidate then api.original_name
    else if api.original_name = none then some candidate else api.original_name
  (.ok ⟨⟨ns, alloc.1⟩, original_name, newdeps, rename_to, detail⟩,
    { st with tracker := alloc.2 })

/-- `analyze_pod_api` (pod/mod.rs): per-entity POD analysis.  Pass-through
variants are unchanged (with this phase's rename target reset); enums have
their parser attributes stripped; structs are classified against the by-value
checker — eligible structs have their field types walked for dependencies,
ineligible structs are made opaque with their dependency set cleared — and
then both structs and forward declarations get a unique bridge name. -/
def analyze_pod_api (byvalue_checker : ByValueChecker) (api : UnanalyzedApi)
    (st : PodState) : Except ConvertError (Api PodStructAnalysisBody) × PodState :=
  let ty_id := api.name
  match api.detail with
  | .ConcreteType rs cpp =>
    (.ok ⟨api.name, api.original_name, api.deps, none, .ConcreteType rs cpp⟩, st)
  | .ForwardDeclaration =>
    finish_renamed_api api ty_id.final ty_id.ns api.deps .ForwardDeclaration st
  | .StringConstructor =>
    (.ok ⟨api.name, api.original_name, api.deps, none, .StringConstructor⟩, st)
  | .Function f =>
    (.ok ⟨api.name, api.original_name, api.deps, none, .Function f⟩, st)
  | .Const c =>
    (.ok ⟨api.name, api.original_name, api.deps, none, .Const c⟩, st)
  | .Typedef item analysis =>
    (.ok ⟨api.name, api.original_name, api.deps, none, .Typedef item analysis⟩, st)
  | .CType t =>
    (.ok ⟨api.name, api.original_name, api.deps, none, .CType t⟩, st)
  | .Enum item =>
    match remove_bindgen_attrs item.attrs with
    | .error e => (.error e, st)
    | .ok attrs' =>
      (.ok ⟨api.name, api.original_name, api.deps, none, .Enum ⟨item.ident, attrs'⟩⟩, st)
  | .Struct item _ =>
    match remove_bindgen_attrs item.attrs with
    | .error e => (.error e, st)
    | .ok attrs' =>
      let item1 : ItemStruct := { item with attrs := attrs' }
      let bases := get_bases item1
      if byvalue_checker.is_pod ty_id then
        match get_struct_field_types ty_id.ns item1.fields api.deps with
        | (.error e, ex) => (.error e, { st with extra_apis := st.extra_apis ++ ex })
        | (.ok newdeps, ex) =>
          finish_renamed_api api item1.ident ty_id.ns newdeps
            (.Struct item1 ⟨.Pod, bases⟩) { st with extra_apis := st.extra_apis ++ ex }
      else
        let item2 := make_non_pod item1
        finish_renamed_api api item2.ident ty_id.ns ∅
          (.Struct item2 ⟨.NonPod, bases⟩) st
  | .IgnoredItem e c =>
    (.ok ⟨api.name, api.original_name, api.deps, none, .IgnoredItem e c⟩, st)

/-- The inert placeholder a failed entity is converted into. -/
def ignored_api (api : UnanalyzedApi) (e : ConvertError) : Api PodStructAnalysisBody :=
  ⟨api.name, api.original_name, ∅, none, .IgnoredItem e (.Item api.name.final)⟩

/-- Modelled from the spec: `convert_item_apis` (error_reporter.rs, not under
src/) runs the per-entity analysis over a batch, pushing each success into the
results and converting each per-entity error into an inert `IgnoredItem`
placeholder instead of aborting the batch; here specialized to
`analyze_pod_api`. -/
def run_pod_pass (byvalue_checker : ByValueChecker) :
    List UnanalyzedApi → PodState → List (Api PodStructAnalysisBody) × PodState
  | [], st => ([], st)
  | api :: rest, st =>
    match analyze_pod_api byvalue_checker api st with
    | (.ok a, st') =>
      let r := run_pod_pass byvalue_checker rest st'
      (a :: r.1, r.2)
    | (.error e, st') =>
      let r := run_pod_pass byvalue_checker rest st'
      (ignored_api api e :: r.1, r.2)

/-- `analyze_pod_apis` (pod/mod.rs): build the by-value checker (erring if a
user `pod` request cannot be honored), run the per-entity analysis over the
batch, then run the same analysis once more over the auxiliary entities
synthesized by the first pass.  The source then asserts that the second pass
synthesized nothing further; that assertion is the subject of
`analyze_pod_apis_second_pass_no_extras`. -/
def analyze_pod_apis (apis : List UnanalyzedApi) (config : IncludeCppConfig) :
    Except ConvertError (List (Api PodStructAnalysisBody)) :=
  match ByValueChecker.new_from_apis apis config with
  | .error e => .error e
  | .ok byvalue_checker =>
    let p1 := run_pod_pass byvalue_checker apis ⟨[], BridgeNameTracker.new⟩
    let p2 := run_pod_pass byvalue_checker (p1.2.extra_apis.map add_analysis)
      ⟨[], p1.2.tracker⟩
    .ok (p1.1 ++ p2.1)

/-- The auxiliary entities synthesized by the second POD pass — the list the
source's `assert!(more_extra_apis.is_empty())` checks. -/
def pod_more_extra_apis (apis : List UnanalyzedApi) (config : IncludeCppConfig) :
    List UnanalyzedApi :=
  match ByValueChecker.new_from_apis apis config with
  | .error _ => []
  | .ok byvalue_checker =>
    (run_pod_pass byvalue_checker
      ((run_pod_pass byvalue_checker apis
          ⟨[], BridgeNameTracker.new⟩).2.extra_apis.map add_analysis)
      ⟨[], (run_pod_pass byvalue_checker apis
          ⟨[], BridgeNameTracker.new⟩).2.tracker⟩).2.extra_apis

/-- Whether an entity is a concrete synthesized type. -/
def is_concrete (a : UnanalyzedApi) : Bool :=
  match a.detail with
  | .ConcreteType _ _ => true
  | _ => false

/-! ## Typedef analysis (conversion/analysis/tdef.rs) -/

/-- `get_replacement_typedef` (tdef.rs): strip parser attributes, convert the
typedef's target type in the inner-type context, reject a converted target
that denotes the typedef's own qualified name with
`InfinitelyRecursiveTypedef`, and otherwise record the converted target,
merging dependencies and auxiliary entities.  The success value carries the
new detail, the auxiliary entities appended, and the extended dependency
set. -/
def get_replacement_typedef (name : QualifiedName) (ity : ItemType)
    (deps : Finset QualifiedName) :
    Except ConvertErrorWithContext
      (ApiDetail Unit × List UnanalyzedApi × Finset QualifiedName) :=
  match remove_bindgen_attrs ity.attrs with
  | .error e => .error ⟨e, some (.Item ity.ident)⟩
  | .ok attrs' =>
    match convert_type ity.ty name.ns .CxxInnerType with
    | .error e => .error ⟨e, some (.Item name.final)⟩
    | .ok ann =>
      if (match ann.ty with
          | .path typ => decide (QualifiedName.from_type_path typ = some name)
          | _ => false) then
        .error ⟨.InfinitelyRecursiveTypedef name, some (.Item name.final)⟩
      else
        .ok (.Typedef (.Type ity) (.Type ⟨ity.ident, attrs', ann.ty⟩),
          ann.extra_apis, deps ∪ ann.types_encountered)

/-- The mutable state threaded through the typedef analysis of one batch:
the auxiliary-entity queue, the failed-entity queue, and the bridge name
tracker. -/
structure TdefState where
  extra_apis : List UnanalyzedApi
  problem_apis : List UnanalyzedApi
  tracker : BridgeNameTracker
deriving DecidableEq

/-- Modelled from the spec: `report_any_error` (error_reporter.rs, not under
src/) converts a per-entity failure into an inert `IgnoredItem` placeholder
recorded against the failing entity's namespace and context. -/
def problem_api (ns : Namespace) (e : ConvertErrorWithContext) : UnanalyzedApi :=
  ⟨⟨ns, match e.ctx with
    | some (.Item i) => i
    | some (.Method s _) => s
    | none => "unknown"⟩, none, ∅, none,
    .IgnoredItem e.err (e.ctx.getD (.Item "unknown"))⟩

/-- The per-entity step of `convert_typedef_targets` (tdef.rs 53-118): a
typedef arising from a `type` item gets a unique bridge name first
(recording a rename when it changed) and then has its target resolved
through `get_replacement_typedef` — a failure there drops the entity and
queues a problem placeholder instead; a `use`-typedef has its item copied
into its analysis; every other variant passes through unchanged with this
phase's rename target reset. -/
def convert_typedef_target_api (api : UnanalyzedApi) (st : TdefState) :
    Option UnanalyzedApi × TdefState :=
  let name := api.name
  let ns := name.ns
  match api.detail with
  | .Typedef (.Type ity) _ =>
    let alloc := st.tracker.get_unique_cxx_bridge_name none ity.ident ns
    let new_name : QualifiedName := ⟨ns, alloc.1⟩
    let rename_to : Option String :=
      if alloc.1 = ity.ident then none else some ity.ident
    match get_replacement_typedef name ity api.deps with
    | .error e =>
      (none, ⟨st.extra_apis, st.problem_apis ++ [problem_api ns e], alloc.2⟩)
    | .ok (detail, extras, newdeps) =>
      (some ⟨new_name, api.original_name, newdeps, rename_to, detail⟩,
        ⟨st.extra_apis ++ extras, st.problem_apis, alloc.2⟩)
  | .Typedef item _ =>
    (some ⟨api.name, api.original_name, api.deps, none, .Typedef item item⟩, st)
  | d => (some ⟨api.name, api.original_name, api.deps, none, d⟩, st)

/-- Fold the per-entity typedef step over a batch, dropping failed entities
(their placeholders are queued in the state). -/
def convert_typedef_targets_aux : List UnanalyzedApi → TdefState →
    List UnanalyzedApi × TdefState
  | [], st => ([], st)
  | api :: rest, st =>
    let r := convert_typedef_target_api api st
    let rr := convert_typedef_targets_aux rest r.2
    (match r.1 with
     | some a => a :: rr.1
     | none => rr.1, rr.2)

/-- `convert_typedef_targets` (tdef.rs 43-124): run the per-entity typedef
step over the batch, then append the synthesized auxiliary entities and the
problem placeholders, re-tagged for the next phase. -/
def convert_typedef_targets (config : IncludeCppConfig)
    (apis : List UnanalyzedApi) : List UnanalyzedApi :=
  let r := convert_typedef_targets_aux apis ⟨[], [], BridgeNameTracker.new⟩
  r.1 ++ (r.2.extra_apis ++ r.2.problem_apis).map add_analysis

/-- The candidate flat name the POD phase submits to the bridge name
allocator for an entity, if any (pod/mod.rs: the leaf name for a forward
declaration, the struct item's identifier for a struct; no other variant is
allocated a name in this phase). -/
def pod_candidate_name (api : UnanalyzedApi) : Option String :=
  match api.detail with
  | .ForwardDeclaration => some api.name.final
  | .Struct item _ => some item.ident
  | _ => none

/-- The candidate flat name the typedef phase submits to the bridge name
allocator for an entity, if any (tdef.rs 78-82: the typedef item's
identifier; no other variant is allocated a name in this phase). -/
def tdef_candidate_name (api : UnanalyzedApi) : Option String :=
  match api.detail with
  | .Typedef (.Type ity) _ => some ity.ident
  | _ => none

/-! ## Concrete fixtures used by the witness theorems -/

deriving instance DecidableEq for Except

/-- The spec's first scenario: `struct Point { int x; int y; }`. -/
def pointItem : ItemStruct :=
  ⟨"Point", [], false, [⟨some "x", .path ⟨["i32"]⟩⟩, ⟨some "y", .path ⟨["i32"]⟩⟩]⟩

/-- The `Point` struct as a raw entity. -/
def pointApi : UnanalyzedApi := ⟨⟨[], "Point"⟩, none, ∅, none, .Struct pointItem ()⟩

/-- The analyzed `Point` entity the POD phase is expected to produce. -/
def pointOut : Api PodStructAnalysisBody :=
  ⟨⟨[], "Point"⟩, none, {⟨[], "i32"⟩}, none, .Struct pointItem ⟨.Pod, ∅⟩⟩

/-- The spec's second scenario: `struct Handle` with a user-declared
destructor and a `void*` field. -/
def handleItem : ItemStruct := ⟨"Handle", [], true, [⟨some "impl", .pointer .other⟩]⟩

/-- The `Handle` struct as a raw entity. -/
def handleApi : UnanalyzedApi := ⟨⟨[], "Handle"⟩, none, ∅, none, .Struct handleItem ()⟩

/-- The analyzed `Handle` entity: opaque, no dependencies, non-POD. -/
def handleOut : Api PodStructAnalysisBody :=
  ⟨⟨[], "Handle"⟩, none, ∅, none,
    .Struct ⟨"Handle", [], true, [non_pod_placeholder_field]⟩ ⟨.NonPod, ∅⟩⟩

/-- A configuration explicitly requesting by-value treatment for `Handle`. -/
def handleConfig : IncludeCppConfig :=
  ⟨[], .AllFunctionsUnsafe, false, ["Handle"], .Specific [], [], false, none⟩

/-- An empty POD-analysis state: no auxiliary entities, fresh tracker. -/
def emptyPodState : PodState := ⟨[], BridgeNameTracker.new⟩

/-- A self-referential typedef item: `using A = root::A`. -/
def selfAliasItem : ItemType := ⟨"A", [], .path ⟨["root", "A"]⟩⟩

/-- The spec's alias scenario: `using IntAlias = int;`. -/
def intAliasItem : ItemType := ⟨"IntAlias", [], .path ⟨["i32"]⟩⟩

/-- The `IntAlias` typedef as a raw entity. -/
def intAliasApi : UnanalyzedApi :=
  ⟨⟨[], "IntAlias"⟩, none, ∅, none, .Typedef (.Type intAliasItem) (.Type intAliasItem)⟩

/-- The analyzed `IntAlias` entity the typedef phase is expected to
produce. -/
def intAliasOut : UnanalyzedApi :=
  ⟨⟨[], "IntAlias"⟩, none, {⟨[], "i32"⟩}, none,
    .Typedef (.Type intAliasItem) (.Type ⟨"IntAlias", [], .path ⟨["i32"]⟩⟩)⟩

/-- An empty typedef-analysis state. -/
def emptyTdefState : TdefState := ⟨[], [], BridgeNameTracker.new⟩

/-! ## Theorems: claims C8, C9, C10 -/

/-- C8 (counterexample): the claim says every input accepted by the
`QualifiedName` constructors yields a non-empty final item, but
`new_from_cpp_name` accepts the empty string without panicking and returns a
`QualifiedName` whose final item is the empty string. -/
theorem new_from_cpp_name_empty_leaf_counterexample :
    (QualifiedName.new_from_cpp_name "").final = "" := by decide

/-- C8 (amended): `from_segments` accepts only non-empty segment lists and
returns the last segment as the final item, so the final item is non-empty
whenever no segment is empty (syn identifiers never are); and
`new_from_cpp_name` returns a non-empty final item provided the last
`::`-separated segment of its input is non-empty.  An empty input, or an input
ending in `::`, yields an empty leaf. -/
theorem qualified_name_nonempty_leaf_amended :
    (∀ segs q, QualifiedName.from_segments segs = some q → "" ∉ segs →
      q.final ≠ "") ∧
    (∀ id : String, (splitCpp id).getLastD "" ≠ "" →
      (QualifiedName.new_from_cpp_name id).final ≠ "") := by
  constructor
  · intro segs
    induction segs with
    | nil => intro q hq; simp [QualifiedName.from_segments] at hq
    | cons s rest ih =>
      intro q hq hmem
      match rest, hq with
      | [], hq =>
        simp [QualifiedName.from_segments] at hq
        subst hq
        have hne : "" ≠ s := by simpa using hmem
        exact fun hf => hne (show s = "" from hf).symm
      | s' :: rest', hq =>
        simp only [QualifiedName.from_segments, Option.map_eq_some'] at hq
        obtain ⟨q', hq', rfl⟩ := hq
        simp only [List.mem_cons, not_or] at hmem
        exact ih q' hq' (by simp [hmem.2.1, hmem.2.2])
  · intro id h
    simpa [QualifiedName.new_from_cpp_name] using h

/-- C8 (witness for the amended theorem): concrete instantiations of both
parts. -/
theorem qualified_name_nonempty_leaf_amended_witness :
    ((⟨["std"], "string"⟩ : QualifiedName).final ≠ "") ∧
      (QualifiedName.new_from_cpp_name "std::string").final ≠ "" :=
  ⟨qualified_name_nonempty_leaf_amended.1 ["std", "string"] ⟨["std"], "string"⟩
      (by decide) (by decide),
    qualified_name_nonempty_leaf_amended.2 "std::string" (by decide)⟩

/-- C9: `validate_ident_ok_for_cxx` errs exactly on reserved names (with
`ReservedName`) and on identifiers containing a double underscore (with
`TooManyUnderscores`), and accepts every other identifier. -/
theorem validate_ident_ok_for_cxx_spec (id : String) :
    (validate_ident_ok_for_cxx id = .ok () ↔
      (id ∉ RESERVED_NAMES ∧ hasDoubleUnderscore id.data = false)) ∧
    (id ∈ RESERVED_NAMES → validate_ident_ok_for_cxx id = .error .ReservedName) ∧
    (hasDoubleUnderscore id.data = true →
      validate_ident_ok_for_cxx id = .error .TooManyUnderscores) := by
  by_cases h : id ∈ RESERVED_NAMES
  · have h4 : id = "move" ∨ id = "ref" ∨ id = "async" ∨ id = "await" := by
      simpa [RESERVED_NAMES] using h
    have hnu : hasDoubleUnderscore id.data = false := by
      rcases h4 with h' | h' | h' | h' <;> subst h' <;> decide
    refine ⟨?_, ?_, ?_⟩
    · simp [validate_ident_ok_for_cxx, validate_ident_ok_for_rust, h]
    · intro _
      simp [validate_ident_ok_for_cxx, validate_ident_ok_for_rust, h]
    · intro hu
      rw [hnu] at hu
      exact absurd hu (by simp)
  · by_cases hu : hasDoubleUnderscore id.data = true
    · simp [validate_ident_ok_for_cxx, validate_ident_ok_for_rust, h, hu]
    · have hu' : hasDoubleUnderscore id.data = false := by
        revert hu
        cases hasDoubleUnderscore id.data <;> simp
      simp [validate_ident_ok_for_cxx, validate_ident_ok_for_rust, h, hu']

/-- C9 (witness): concrete identifiers exercising each arm. -/
theorem validate_ident_ok_for_cxx_spec_witness :
    validate_ident_ok_for_cxx "move" = .error .ReservedName ∧
      validate_ident_ok_for_cxx "a__b" = .error .TooManyUnderscores ∧
      validate_ident_ok_for_cxx "point" = .ok () :=
  ⟨(validate_ident_ok_for_cxx_spec "move").2.1 (by decide),
    (validate_ident_ok_for_cxx_spec "a__b").2.2 (by decide),
    (validate_ident_ok_for_cxx_spec "point").1.mpr (by decide)⟩

/-- C10: on a configuration whose allowlist is `Unspecified`, both
`bindgen_allowlist` and `is_on_allowlist` hit the `unreachable!()` branch
(modelled as `none`) rather than returning a value; on any configuration whose
allowlist has been set they return a value. -/
theorem allowlist_accessors_totality (c : IncludeCppConfig) :
    (c.allowlist = .Unspecified →
      c.bindgen_allowlist = none ∧ ∀ name, c.is_on_allowlist name = none) ∧
    (c.allowlist ≠ .Unspecified →
      c.bindgen_allowlist ≠ none ∧ ∀ name, c.is_on_allowlist name ≠ none) := by
  cases h : c.allowlist <;>
    simp [IncludeCppConfig.is_on_allowlist, IncludeCppConfig.bindgen_allowlist, h]

/-- C10 (witness): a configuration with an unspecified allowlist, on which
both accessors panic (model: `none`), and one with a set allowlist, on which
both return values. -/
theorem allowlist_accessors_totality_witness :
    (IncludeCppConfig.bindgen_allowlist
        ⟨[], .AllFunctionsUnsafe, false, [], .Unspecified, [], false, none⟩ = none) ∧
      (IncludeCppConfig.is_on_allowlist
        ⟨[], .AllFunctionsUnsafe, false, [], .Unspecified, [], false, none⟩ "Point" = none) ∧
      (IncludeCppConfig.is_on_allowlist
        ⟨[], .AllFunctionsUnsafe, false, [], .All, [], false, none⟩ "Point" ≠ none) :=
  ⟨((allowlist_accessors_totality _).1 rfl).1,
    ((allowlist_accessors_totality _).1 rfl).2 "Point",
    ((allowlist_accessors_totality
        ⟨[], .AllFunctionsUnsafe, false, [], .All, [], false, none⟩).2
      (by decide)).2 "Point"⟩

/-! ## Helper lemmas about the POD pipeline -/

/-- One-step unfolding of the pointer arm of `convert_type` for a pointee
that is not the unsupported catch-all form. -/
theorem convert_type_pointer_eq (t : RType) (ns : Namespace)
    (ctx : TypeConversionContext) (hne : t ≠ RType.other) :
    convert_type (.pointer t) ns ctx =
      match convert_type t ns ctx with
      | .error e => .error e
      | .ok annP => .ok ⟨.pointer annP.ty, annP.types_encountered, annP.extra_apis⟩ := by
  cases t
  case other => exact absurd rfl hne
  all_goals rfl

/-- Every auxiliary entity synthesized by the type converter is a concrete
synthesized type. -/
theorem convert_type_extras_concrete :
    ∀ (ty : RType) (ns : Namespace) (ctx : TypeConversionContext) (ann : Annotated),
      convert_type ty ns ctx = .ok ann →
      ∀ x ∈ ann.extra_apis, is_concrete x = true := by
  intro ty
  induction ty with
  | path typ =>
    intro ns ctx ann h x hx
    cases hf : QualifiedName.from_type_path typ <;>
      simp only [convert_type, hf] at h
    · exact absurd h (by simp)
    · cases h.symm
      simp at hx
  | templated typ arg ih =>
    intro ns ctx ann h x hx
    cases hf : QualifiedName.from_type_path typ <;>
      simp only [convert_type, hf] at h
    · exact absurd h (by simp)
    · cases hc : convert_type arg ns ctx <;> rw [hc] at h
      · exact absurd h (by simp)
      · cases h.symm
        simp only [List.mem_append, List.mem_singleton] at hx
        rcases hx with hx | hx
        · exact ih ns ctx _ hc x hx
        · subst hx
          rfl
  | pointer t ih =>
    intro ns ctx ann h x hx
    by_cases ht : t = RType.other
    · subst ht
      exact absurd h (by simp [convert_type])
    · rw [convert_type_pointer_eq t ns ctx ht] at h
      cases hc : convert_type t ns ctx <;> rw [hc] at h
      · exact absurd h (by simp)
      · cases h.symm
        exact ih ns ctx _ hc x hx
  | other =>
    intro ns ctx ann h x hx
    exact absurd h (by simp [convert_type])

/-- Every auxiliary entity queued while walking a struct's fields is a
concrete synthesized type. -/
theorem get_struct_field_types_extras_concrete (ns : Namespace) :
    ∀ (fields : List StructField) (deps : Finset QualifiedName),
      ∀ x ∈ (get_struct_field_types ns fields deps).2, is_concrete x = true := by
  intro fields
  induction fields with
  | nil =>
    intro deps x hx
    simp [get_struct_field_types] at hx
  | cons f rest ih =>
    intro deps x hx
    simp only [get_struct_field_types] at hx
    cases hc : convert_type f.ty ns .CxxInnerType <;> rw [hc] at hx
    · simp at hx
    · simp only [List.mem_append] at hx
      rcases hx with hx | hx
      · exact convert_type_extras_concrete _ _ _ _ hc x hx
      · exact ih _ x hx

/-- The rename-allocation helper never touches the auxiliary-entity queue. -/
theorem finish_renamed_api_extras (api : UnanalyzedApi) (candidate : String)
    (ns : Namespace) (newdeps : Finset QualifiedName)
    (detail : ApiDetail PodStructAnalysisBody) (st : PodState) :
    (finish_renamed_api api candidate ns newdeps detail st).2.extra_apis =
      st.extra_apis := rfl

/-- `analyze_pod_api` only ever appends concrete synthesized types to the
auxiliary-entity queue. -/
theorem analyze_pod_api_extras (c : ByValueChecker) (api : UnanalyzedApi)
    (st : PodState) :
    ∀ x ∈ (analyze_pod_api c api st).2.extra_apis,
      x ∈ st.extra_apis ∨ is_concrete x = true := by
  intro x hx
  obtain ⟨nm, onm, dp, rt, dt⟩ := api
  cases dt with
  | Struct item a =>
    simp only [analyze_pod_api, remove_bindgen_attrs] at hx
    split at hx
    · split at hx
      · rename_i e ex heq
        simp only [List.mem_append] at hx
        rcases hx with hx | hx
        · exact Or.inl hx
        · exact Or.inr (get_struct_field_types_extras_concrete nm.ns item.fields
            dp x (by rw [heq]; exact hx))
      · rename_i newdeps ex heq
        rw [finish_renamed_api_extras] at hx
        simp only [List.mem_append] at hx
        rcases hx with hx | hx
        · exact Or.inl hx
        · exact Or.inr (get_struct_field_types_extras_concrete nm.ns item.fields
            dp x (by rw [heq]; exact hx))
    · rw [finish_renamed_api_extras] at hx
      exact Or.inl hx
  | ForwardDeclaration =>
    simp only [analyze_pod_api] at hx
    rw [finish_renamed_api_extras] at hx
    exact Or.inl hx
  | ConcreteType rs cpp => exact Or.inl hx
  | StringConstructor => exact Or.inl hx
  | Function f => exact Or.inl hx
  | Const cst => exact Or.inl hx
  | Typedef it an => exact Or.inl hx
  | CType t => exact Or.inl hx
  | Enum item => exact Or.inl hx
  | IgnoredItem e cx => exact Or.inl hx

/-- On a concrete synthesized type the POD analysis leaves the threaded
state untouched. -/
theorem analyze_pod_api_concrete_state (c : ByValueChecker) (api : UnanalyzedApi)
    (st : PodState) (h : is_concrete api = true) :
    (analyze_pod_api c api st).2 = st := by
  obtain ⟨nm, onm, dp, rt, dt⟩ := api
  cases dt <;> first | rfl | simp [is_concrete] at h

/-- The state after a batch pass is the state after folding the per-entity
analysis over the batch. -/
theorem run_pod_pass_snd_cons (c : ByValueChecker) (api : UnanalyzedApi)
    (rest : List UnanalyzedApi) (st : PodState) :
    (run_pod_pass c (api :: rest) st).2 =
      (run_pod_pass c rest (analyze_pod_api c api st).2).2 := by
  have hunf : run_pod_pass c (api :: rest) st =
      match analyze_pod_api c api st with
      | (.ok a, st') =>
        (a :: (run_pod_pass c rest st').1, (run_pod_pass c rest st').2)
      | (.error e, st') =>
        (ignored_api api e :: (run_pod_pass c rest st').1,
          (run_pod_pass c rest st').2) := rfl
  rw [hunf]
  cases hm : analyze_pod_api c api st with
  | mk r st' => cases r <;> rfl

/-- Across a whole batch pass, every auxiliary entity in the final queue was
either already queued or is a concrete synthesized type. -/
theorem run_pod_pass_extras (c : ByValueChecker) :
    ∀ (apis : List UnanalyzedApi) (st : PodState),
      ∀ x ∈ (run_pod_pass c apis st).2.extra_apis,
        x ∈ st.extra_apis ∨ is_concrete x = true := by
  intro apis
  induction apis with
  | nil => intro st x hx; exact Or.inl hx
  | cons api rest ih =>
    intro st x hx
    rw [run_pod_pass_snd_cons] at hx
    rcases ih _ x hx with h | h
    · exact analyze_pod_api_extras c api st x h
    · exact Or.inr h

/-- A batch pass over concrete synthesized types only does not change the
threaded state at all. -/
theorem run_pod_pass_state_noop (c : ByValueChecker) :
    ∀ (apis : List UnanalyzedApi) (st : PodState),
      (∀ x ∈ apis, is_concrete x = true) → (run_pod_pass c apis st).2 = st := by
  intro apis
  induction apis with
  | nil => intro st h; rfl
  | cons api rest ih =>
    intro st h
    rw [run_pod_pass_snd_cons,
      analyze_pod_api_concrete_state c api st (h api (by simp))]
    exact ih st fun x hx => h x (by simp [hx])

/-- Mapping the phase re-tagging over a batch changes nothing. -/
theorem map_add_analysis (l : List UnanalyzedApi) : l.map add_analysis = l := by
  induction l with
  | nil => rfl
  | cons a rest ih => rw [List.map_cons, ih]; rfl

/-- C4: the auxiliary entities synthesized during the first POD pass are
re-run through the same analysis exactly once, and that second pass
synthesizes no further auxiliary entities, for every input API list and
configuration — the source's `assert!(more_extra_apis.is_empty())` always
holds. -/
theorem analyze_pod_apis_second_pass_no_extras (apis : List UnanalyzedApi)
    (config : IncludeCppConfig) : pod_more_extra_apis apis config = [] := by
  unfold pod_more_extra_apis
  cases hb : ByValueChecker.new_from_apis apis config with
  | error e => rfl
  | ok c =>
    have hall : ∀ x ∈ (run_pod_pass c apis
        ⟨[], BridgeNameTracker.new⟩).2.extra_apis.map add_analysis,
        is_concrete x = true := by
      rw [map_add_analysis]
      intro x hx
      rcases run_pod_pass_extras c apis ⟨[], BridgeNameTracker.new⟩ x hx with h | h
      · simp at h
      · exact h
    show (run_pod_pass c ((run_pod_pass c apis
        ⟨[], BridgeNameTracker.new⟩).2.extra_apis.map add_analysis)
      ⟨[], (run_pod_pass c apis
        ⟨[], BridgeNameTracker.new⟩).2.tracker⟩).2.extra_apis = []
    rw [run_pod_pass_state_noop c _ _ hall]

/-- C1: the whole-run result of `analyze_pod_apis` is an error exactly when
some type the configuration explicitly requested by-value (POD) treatment for
is found ineligible by the by-value-safety classifier, and the error is then
the `UnsafePodType` diagnostic naming such a type.  Per-entity conversion
failures never escalate to the whole-run result — they become inert ignored
placeholders. -/
theorem analyze_pod_apis_err_iff_unsafe_pod_request (apis : List UnanalyzedApi)
    (config : IncludeCppConfig) :
    ((∃ e, analyze_pod_apis apis config = .error e) ↔
      ∃ r ∈ config.pod_requests,
        pod_eligible apis (QualifiedName.new_from_cpp_name r) = false) ∧
    ∀ e, analyze_pod_apis apis config = .error e →
      ∃ r ∈ config.pod_requests, e = .UnsafePodType r ∧
        pod_eligible apis (QualifiedName.new_from_cpp_name r) = false := by
  unfold analyze_pod_apis ByValueChecker.new_from_apis
  cases hf : config.pod_requests.find?
      (fun r => !pod_eligible apis (QualifiedName.new_from_cpp_name r)) with
  | some r =>
    have hmem : r ∈ config.pod_requests := List.mem_of_find?_eq_some hf
    have hpred : pod_eligible apis (QualifiedName.new_from_cpp_name r) = false := by
      have := List.find?_some hf
      simpa using this
    constructor
    · constructor
      · intro _
        exact ⟨r, hmem, hpred⟩
      · intro _
        exact ⟨.UnsafePodType r, rfl⟩
    · intro e he
      have : ConvertError.UnsafePodType r = e := Except.error.inj he
      exact ⟨r, hmem, this.symm, hpred⟩
  | none =>
    have hnone := List.find?_eq_none.mp hf
    constructor
    · constructor
      · rintro ⟨e, he⟩
        exact Except.noConfusion he
      · rintro ⟨r, hr, helig⟩
        exact absurd (by simp [helig]) (hnone r hr)
    · intro e he
      exact Except.noConfusion he

/-- C1 (witness): the spec's `Handle` scenario — a configuration requesting
by-value treatment for the ineligible `Handle` makes the run surface the
`UnsafePodType` error naming `Handle`. -/
theorem analyze_pod_apis_err_iff_unsafe_pod_request_witness :
    (∃ e, analyze_pod_apis [handleApi] handleConfig = .error e) ∧
      ∃ r ∈ handleConfig.pod_requests,
        ConvertError.UnsafePodType "Handle" = .UnsafePodType r ∧
          pod_eligible [handleApi] (QualifiedName.new_from_cpp_name r) = false :=
  ⟨(analyze_pod_apis_err_iff_unsafe_pod_request [handleApi] handleConfig).1.mpr
      ⟨"Handle", by decide, by decide⟩,
    (analyze_pod_apis_err_iff_unsafe_pod_request [handleApi] handleConfig).2
      (.UnsafePodType "Handle") (by decide)⟩

/-- C7: the POD analysis phase is deterministic — it is a pure function of
the input API list and the configuration, so two runs on equal inputs return
identical results (same boundary names, dependency sets, and
classifications).  In the embedding all collection state is value-level
(`Finset` dependency sets compare extensionally, matching the source's
`HashSet`s compared as sets), so no run-to-run nondeterminism exists. -/
theorem analyze_pod_apis_deterministic (apis₁ apis₂ : List UnanalyzedApi)
    (config₁ config₂ : IncludeCppConfig)
    (ha : apis₁ = apis₂) (hc : config₁ = config₂) :
    analyze_pod_apis apis₁ config₁ = analyze_pod_apis apis₂ config₂ := by
  subst ha
  subst hc
  rfl

/-- C7 (witness): two runs on the `Point` scenario agree. -/
theorem analyze_pod_apis_deterministic_witness :
    analyze_pod_apis [pointApi] handleConfig =
      analyze_pod_apis [pointApi] handleConfig :=
  analyze_pod_apis_deterministic [pointApi] [pointApi] handleConfig handleConfig
    rfl rfl

/-- What a successful field walk guarantees: the prior dependencies survive,
every name encountered in any field's conversion lands in the result, and
nothing else does. -/
theorem get_struct_field_types_ok_spec (ns : Namespace) :
    ∀ (fields : List StructField) (deps d : Finset QualifiedName)
      (ex : List UnanalyzedApi),
      get_struct_field_types ns fields deps = (.ok d, ex) →
      deps ⊆ d ∧
        (∀ f ∈ fields, ∀ ann, convert_type f.ty ns .CxxInnerType = .ok ann →
          ann.types_encountered ⊆ d) ∧
        ∀ q ∈ d, q ∈ deps ∨ ∃ f ∈ fields, ∃ ann,
          convert_type f.ty ns .CxxInnerType = .ok ann ∧
          q ∈ ann.types_encountered := by
  intro fields
  induction fields with
  | nil =>
    intro deps d ex h
    simp only [get_struct_field_types, Prod.mk.injEq] at h
    obtain ⟨h1, h2⟩ := h
    obtain rfl : deps = d := Except.ok.inj h1
    exact ⟨Finset.Subset.refl _, by simp, fun q hq => Or.inl hq⟩
  | cons f rest ih =>
    intro deps d ex h
    simp only [get_struct_field_types] at h
    cases hc : convert_type f.ty ns .CxxInnerType <;> simp only [hc] at h
    · simp at h
    · rename_i ann
      cases hr : get_struct_field_types ns rest (deps ∪ ann.types_encountered) with
      | mk r1 r2 =>
        rw [hr] at h
        simp only [Prod.mk.injEq] at h
        obtain ⟨h1, h2⟩ := h
        obtain ⟨hsub, hfields, hupper⟩ :=
          ih (deps ∪ ann.types_encountered) d r2 (by rw [hr, h1])
        refine ⟨?_, ?_, ?_⟩
        · exact fun q hq => hsub (Finset.mem_union_left _ hq)
        · intro f' hf' ann' hconv'
          rcases List.mem_cons.mp hf' with hf' | hf'
          · subst hf'
            rw [hc] at hconv'
            obtain rfl : ann = ann' := Except.ok.inj hconv'
            exact fun q hq => hsub (Finset.mem_union_right _ hq)
          · exact hfields f' hf' ann' hconv'
        · intro q hq
          rcases hupper q hq with hq' | ⟨f', hf', ann', hconv', hq'⟩
          · rcases Finset.mem_union.mp hq' with hq'' | hq''
            · exact Or.inl hq''
            · exact Or.inr ⟨f, List.mem_cons_self f rest, ann, hc, hq''⟩
          · exact Or.inr ⟨f', List.mem_cons_of_mem f hf', ann', hconv', hq'⟩

/-- Unfolding of the rename-allocation helper. -/
theorem finish_renamed_api_eq (api : UnanalyzedApi) (cand : String)
    (ns : Namespace) (newdeps : Finset QualifiedName)
    (detail : ApiDetail PodStructAnalysisBody) (st : PodState) :
    finish_renamed_api api cand ns newdeps detail st =
      (.ok ⟨⟨ns, (st.tracker.get_unique_cxx_bridge_name none cand ns).1⟩,
        (if (st.tracker.get_unique_cxx_bridge_name none cand ns).1 = cand then
          api.original_name
        else if api.original_name = none then some cand else api.original_name),
        newdeps,
        (if (st.tracker.get_unique_cxx_bridge_name none cand ns).1 = cand then
          none
        else some cand),
        detail⟩,
      ⟨st.extra_apis, (st.tracker.get_unique_cxx_bridge_name none cand ns).2⟩) := rfl

/-- On a collision-free candidate the rename-allocation helper returns the
candidate unchanged, records no rename, and leaves the original name as it
was. -/
theorem finish_renamed_api_free (api : UnanalyzedApi) (cand : String)
    (ns : Namespace) (newdeps : Finset QualifiedName)
    (detail : ApiDetail PodStructAnalysisBody) (st : PodState)
    (hfree : cand ∉ st.tracker.allocated) :
    finish_renamed_api api cand ns newdeps detail st =
      (.ok ⟨⟨ns, cand⟩, api.original_name, newdeps, none, detail⟩,
        ⟨st.extra_apis, ⟨cand :: st.tracker.allocated⟩⟩) := by
  have hg : st.tracker.get_unique_cxx_bridge_name none cand ns =
      (cand, ⟨cand :: st.tracker.allocated⟩) := by
    unfold BridgeNameTracker.get_unique_cxx_bridge_name
    rw [if_neg hfree]
  rw [finish_renamed_api_eq, hg]
  simp

/-- C2: a struct entity the by-value-safety classifier finds ineligible comes
out of `analyze_pod_api` with its dependency set cleared entirely, its fields
replaced by the opaque placeholder, and tagged `TypeKind::NonPod`. -/
theorem analyze_pod_api_non_pod_opaque (byvalue_checker : ByValueChecker)
    (api : UnanalyzedApi) (st : PodState) (item : ItemStruct) (a : Unit)
    (out : Api PodStructAnalysisBody) (st' : PodState)
    (hdetail : api.detail = .Struct item a)
    (hpod : byvalue_checker.is_pod api.name = false)
    (hrun : analyze_pod_api byvalue_checker api st = (.ok out, st')) :
    out.deps = ∅ ∧
      ∃ item' k, out.detail = .Struct item' k ∧
        item'.fields = [non_pod_placeholder_field] ∧ k.kind = .NonPod := by
  simp only [analyze_pod_api, remove_bindgen_attrs, hdetail] at hrun
  rw [if_neg (by simp [hpod])] at hrun
  rw [finish_renamed_api_eq] at hrun
  simp only [Prod.mk.injEq, Except.ok.injEq] at hrun
  obtain ⟨h1, h2⟩ := hrun
  subst h1
  exact ⟨rfl, _, _, rfl, rfl, rfl⟩

/-- C2 (witness): the spec's `Handle` scenario — ineligible, so opaque with
no dependencies and tagged non-POD. -/
theorem analyze_pod_api_non_pod_opaque_witness :
    handleOut.deps = ∅ ∧
      ∃ item' k, handleOut.detail = .Struct item' k ∧
        item'.fields = [non_pod_placeholder_field] ∧ k.kind = .NonPod :=
  analyze_pod_api_non_pod_opaque ⟨[handleApi]⟩ handleApi emptyPodState
    handleItem () handleOut ⟨[], ⟨["Handle"]⟩⟩ rfl (by decide) (by decide)

/-- A free candidate is reserved and returned unchanged by the bridge name
tracker. -/
theorem get_unique_free (t : BridgeNameTracker) (self_ty : Option QualifiedName)
    (cand : String) (ns : Namespace) (hfree : cand ∉ t.allocated) :
    t.get_unique_cxx_bridge_name self_ty cand ns =
      (cand, ⟨cand :: t.allocated⟩) := by
  unfold BridgeNameTracker.get_unique_cxx_bridge_name
  rw [if_neg hfree]

/-- C5: for every entity whose candidate flat name has no collision in the
bridge name tracker, the unique name returned equals the candidate
unchanged, and the entity comes out of the phase with the same leaf name, no
rename mapping (`rename_to = none`), and its original name left as it was.
Stated for the allocator itself, for every entity of the POD phase
(pod/mod.rs — the struct and forward-declaration arms allocate, all other
arms never rename), and for every entity of the typedef phase (tdef.rs —
the type-alias arm allocates, all other arms never rename). -/
theorem bridge_name_no_collision_roundtrip :
    (∀ (t : BridgeNameTracker) (self_ty : Option QualifiedName) (cand : String)
      (ns : Namespace), cand ∉ t.allocated →
      (t.get_unique_cxx_bridge_name self_ty cand ns).1 = cand) ∧
    (∀ (byvalue_checker : ByValueChecker) (api : UnanalyzedApi) (st : PodState)
      (out : Api PodStructAnalysisBody) (st' : PodState),
      analyze_pod_api byvalue_checker api st = (.ok out, st') →
      (∀ cand, pod_candidate_name api = some cand →
        cand ∉ st.tracker.allocated →
        out.rename_to = none ∧ out.original_name = api.original_name ∧
          out.name.final = cand) ∧
      (pod_candidate_name api = none →
        out.rename_to = none ∧ out.original_name = api.original_name ∧
          out.name = api.name)) ∧
    ∀ (api : UnanalyzedApi) (st : TdefState) (a : UnanalyzedApi),
      (convert_typedef_target_api api st).1 = some a →
      (∀ cand, tdef_candidate_name api = some cand →
        cand ∉ st.tracker.allocated →
        a.rename_to = none ∧ a.original_name = api.original_name ∧
          a.name.final = cand) ∧
      (tdef_candidate_name api = none →
        a.rename_to = none ∧ a.original_name = api.original_name ∧
          a.name = api.name) := by
  refine ⟨?_, ?_, ?_⟩
  · intro t self_ty cand ns hfree
    rw [get_unique_free t self_ty cand ns hfree]
  · intro byvalue_checker api st out st' hrun
    cases hd : api.detail with
    | ForwardDeclaration =>
      simp only [analyze_pod_api, hd] at hrun
      constructor
      · intro cand hcand hfree
        have hc2 : api.name.final = cand := by
          simpa [pod_candidate_name, hd] using hcand
        subst hc2
        rw [finish_renamed_api_free] at hrun
        · simp only [Prod.mk.injEq, Except.ok.injEq] at hrun
          obtain ⟨h1, h2⟩ := hrun
          subst h1
          exact ⟨rfl, rfl, rfl⟩
        · exact hfree
      · intro hnone
        simp [pod_candidate_name, hd] at hnone
    | Struct item a =>
      simp only [analyze_pod_api, remove_bindgen_attrs, hd] at hrun
      constructor
      · intro cand hcand hfree
        have hc2 : item.ident = cand := by
          simpa [pod_candidate_name, hd] using hcand
        subst hc2
        by_cases hpod : byvalue_checker.is_pod api.name
        · rw [if_pos hpod] at hrun
          split at hrun
          · exact absurd hrun (by simp)
          · rw [finish_renamed_api_free] at hrun
            · simp only [Prod.mk.injEq, Except.ok.injEq] at hrun
              obtain ⟨h1, h2⟩ := hrun
              subst h1
              exact ⟨rfl, rfl, rfl⟩
            · exact hfree
        · rw [if_neg hpod] at hrun
          rw [finish_renamed_api_free] at hrun
          · simp only [Prod.mk.injEq, Except.ok.injEq] at hrun
            obtain ⟨h1, h2⟩ := hrun
            subst h1
            exact ⟨rfl, rfl, rfl⟩
          · exact hfree
      · intro hnone
        simp [pod_candidate_name, hd] at hnone
    | ConcreteType rs cpp =>
      simp only [analyze_pod_api, hd, Prod.mk.injEq, Except.ok.injEq] at hrun
      obtain ⟨h1, h2⟩ := hrun
      subst h1
      exact ⟨fun cand hcand => by simp [pod_candidate_name, hd] at hcand,
        fun _ => ⟨rfl, rfl, rfl⟩⟩
    | StringConstructor =>
      simp only [analyze_pod_api, hd, Prod.mk.injEq, Except.ok.injEq] at hrun
      obtain ⟨h1, h2⟩ := hrun
      subst h1
      exact ⟨fun cand hcand => by simp [pod_candidate_name, hd] at hcand,
        fun _ => ⟨rfl, rfl, rfl⟩⟩
    | Function f =>
      simp only [analyze_pod_api, hd, Prod.mk.injEq, Except.ok.injEq] at hrun
      obtain ⟨h1, h2⟩ := hrun
      subst h1
      exact ⟨fun cand hcand => by simp [pod_candidate_name, hd] at hcand,
        fun _ => ⟨rfl, rfl, rfl⟩⟩
    | Const cst =>
      simp only [analyze_pod_api, hd, Prod.mk.injEq, Except.ok.injEq] at hrun
      obtain ⟨h1, h2⟩ := hrun
      subst h1
      exact ⟨fun cand hcand => by simp [pod_candidate_name, hd] at hcand,
        fun _ => ⟨rfl, rfl, rfl⟩⟩
    | Typedef it an =>
      simp only [analyze_pod_api, hd, Prod.mk.injEq, Except.ok.injEq] at hrun
      obtain ⟨h1, h2⟩ := hrun
      subst h1
      exact ⟨fun cand hcand => by simp [pod_candidate_name, hd] at hcand,
        fun _ => ⟨rfl, rfl, rfl⟩⟩
    | CType t =>
      simp only [analyze_pod_api, hd, Prod.mk.injEq, Except.ok.injEq] at hrun
      obtain ⟨h1, h2⟩ := hrun
      subst h1
      exact ⟨fun cand hcand => by simp [pod_candidate_name, hd] at hcand,
        fun _ => ⟨rfl, rfl, rfl⟩⟩
    | Enum item =>
      simp only [analyze_pod_api, remove_bindgen_attrs, hd, Prod.mk.injEq,
        Except.ok.injEq] at hrun
      obtain ⟨h1, h2⟩ := hrun
      subst h1
      exact ⟨fun cand hcand => by simp [pod_candidate_name, hd] at hcand,
        fun _ => ⟨rfl, rfl, rfl⟩⟩
    | IgnoredItem e cx =>
      simp only [analyze_pod_api, hd, Prod.mk.injEq, Except.ok.injEq] at hrun
      obtain ⟨h1, h2⟩ := hrun
      subst h1
      exact ⟨fun cand hcand => by simp [pod_candidate_name, hd] at hcand,
        fun _ => ⟨rfl, rfl, rfl⟩⟩
  · intro api st a hsome
    cases hd : api.detail with
    | Typedef item an =>
      cases item with
      | «Type» ity =>
        simp only [convert_typedef_target_api, hd] at hsome
        constructor
        · intro cand hcand hfree
          have hc2 : ity.ident = cand := by
            simpa [tdef_candidate_name, hd] using hcand
          subst hc2
          rw [get_unique_free st.tracker none ity.ident api.name.ns hfree]
            at hsome
          cases hg : get_replacement_typedef api.name ity api.deps with
          | error e =>
            simp only [hg] at hsome
            simp at hsome
          | ok val =>
            obtain ⟨detail, extras, newdeps⟩ := val
            simp only [hg, Option.some.injEq] at hsome
            subst hsome
            exact ⟨by simp, rfl, rfl⟩
        · intro hnone
          simp [tdef_candidate_name, hd] at hnone
      | Use =>
        simp only [convert_typedef_target_api, hd, Option.some.injEq] at hsome
        subst hsome
        exact ⟨fun cand hcand => by simp [tdef_candidate_name, hd] at hcand,
          fun _ => ⟨rfl, rfl, rfl⟩⟩
    | ConcreteType rs cpp =>
      simp only [convert_typedef_target_api, hd, Option.some.injEq] at hsome
      subst hsome
      exact ⟨fun cand hcand => by simp [tdef_candidate_name, hd] at hcand,
        fun _ => ⟨rfl, rfl, rfl⟩⟩
    | ForwardDeclaration =>
      simp only [convert_typedef_target_api, hd, Option.some.injEq] at hsome
      subst hsome
      exact ⟨fun cand hcand => by simp [tdef_candidate_name, hd] at hcand,
        fun _ => ⟨rfl, rfl, rfl⟩⟩
    | StringConstructor =>
      simp only [convert_typedef_target_api, hd, Option.some.injEq] at hsome
      subst hsome
      exact ⟨fun cand hcand => by simp [tdef_candidate_name, hd] at hcand,
        fun _ => ⟨rfl, rfl, rfl⟩⟩
    | Function f =>
      simp only [convert_typedef_target_api, hd, Option.some.injEq] at hsome
      subst hsome
      exact ⟨fun cand hcand => by simp [tdef_candidate_name, hd] at hcand,
        fun _ => ⟨rfl, rfl, rfl⟩⟩
    | Const cst =>
      simp only [convert_typedef_target_api, hd, Option.some.injEq] at hsome
      subst hsome
      exact ⟨fun cand hcand => by simp [tdef_candidate_name, hd] at hcand,
        fun _ => ⟨rfl, rfl, rfl⟩⟩
    | CType t =>
      simp only [convert_typedef_target_api, hd, Option.some.injEq] at hsome
      subst hsome
      exact ⟨fun cand hcand => by simp [tdef_candidate_name, hd] at hcand,
        fun _ => ⟨rfl, rfl, rfl⟩⟩
    | Struct item an =>
      simp only [convert_typedef_target_api, hd, Option.some.injEq] at hsome
      subst hsome
      exact ⟨fun cand hcand => by simp [tdef_candidate_name, hd] at hcand,
        fun _ => ⟨rfl, rfl, rfl⟩⟩
    | Enum item =>
      simp only [convert_typedef_target_api, hd, Option.some.injEq] at hsome
      subst hsome
      exact ⟨fun cand hcand => by simp [tdef_candidate_name, hd] at hcand,
        fun _ => ⟨rfl, rfl, rfl⟩⟩
    | IgnoredItem e cx =>
      simp only [convert_typedef_target_api, hd, Option.some.injEq] at hsome
      subst hsome
      exact ⟨fun cand hcand => by simp [tdef_candidate_name, hd] at hcand,
        fun _ => ⟨rfl, rfl, rfl⟩⟩

/-- C5 (witness): a fresh tracker returns `Point` unchanged; the analyzed
`Point` struct and the analyzed `IntAlias` typedef both keep their leaf,
record no rename, and leave the original name untouched. -/
theorem bridge_name_no_collision_roundtrip_witness :
    (BridgeNameTracker.new.get_unique_cxx_bridge_name none "Point" []).1 =
        "Point" ∧
      (pointOut.rename_to = none ∧
        pointOut.original_name = pointApi.original_name ∧
        pointOut.name.final = "Point") ∧
      intAliasOut.rename_to = none ∧
        intAliasOut.original_name = intAliasApi.original_name ∧
        intAliasOut.name.final = "IntAlias" :=
  ⟨bridge_name_no_collision_roundtrip.1 BridgeNameTracker.new none "Point" []
      (by decide),
    (bridge_name_no_collision_roundtrip.2.1 ⟨[pointApi]⟩ pointApi emptyPodState
        pointOut ⟨[], ⟨["Point"]⟩⟩ (by decide)).1 "Point" (by decide) (by decide),
    (bridge_name_no_collision_roundtrip.2.2 intAliasApi emptyTdefState
        intAliasOut (by decide)).1 "IntAlias" (by decide) (by decide)⟩

/-- C6: a struct entity the by-value-safety classifier finds eligible is
tagged `TypeKind::Pod` and its resulting dependency set is exactly its prior
dependencies unioned with every qualified name encountered while converting
its field types in the inner-type context. -/
theorem analyze_pod_api_pod_deps (byvalue_checker : ByValueChecker)
    (api : UnanalyzedApi) (st : PodState) (item : ItemStruct) (a : Unit)
    (out : Api PodStructAnalysisBody) (st' : PodState)
    (hdetail : api.detail = .Struct item a)
    (hpod : byvalue_checker.is_pod api.name = true)
    (hrun : analyze_pod_api byvalue_checker api st = (.ok out, st')) :
    (∃ item' k, out.detail = .Struct item' k ∧ k.kind = .Pod) ∧
      api.deps ⊆ out.deps ∧
      (∀ f ∈ item.fields, ∀ ann,
        convert_type f.ty api.name.ns .CxxInnerType = .ok ann →
        ann.types_encountered ⊆ out.deps) ∧
      ∀ q ∈ out.deps, q ∈ api.deps ∨ ∃ f ∈ item.fields, ∃ ann,
        convert_type f.ty api.name.ns .CxxInnerType = .ok ann ∧
        q ∈ ann.types_encountered := by
  simp only [analyze_pod_api, remove_bindgen_attrs, hdetail] at hrun
  rw [if_pos hpod] at hrun
  split at hrun
  · exact absurd hrun (by simp)
  · rename_i newdeps ex heq
    rw [finish_renamed_api_eq] at hrun
    simp only [Prod.mk.injEq, Except.ok.injEq] at hrun
    obtain ⟨h1, h2⟩ := hrun
    subst h1
    obtain ⟨hsub, hfields, hupper⟩ :=
      get_struct_field_types_ok_spec api.name.ns item.fields api.deps newdeps
        ex heq
    exact ⟨⟨_, _, rfl, rfl⟩, hsub, hfields, hupper⟩

/-- C6 (witness): the spec's `Point` scenario — tagged POD and its dependency
set contains the boundary representation of `int`. -/
theorem analyze_pod_api_pod_deps_witness :
    (∃ item' k, pointOut.detail = ApiDetail.Struct item' k ∧ k.kind = .Pod) ∧
      (⟨[], "i32"⟩ : QualifiedName) ∈ pointOut.deps :=
  ⟨(analyze_pod_api_pod_deps ⟨[pointApi]⟩ pointApi emptyPodState pointItem ()
      pointOut ⟨[], ⟨["Point"]⟩⟩ rfl (by decide) (by decide)).1,
    (analyze_pod_api_pod_deps ⟨[pointApi]⟩ pointApi emptyPodState pointItem ()
      pointOut ⟨[], ⟨["Point"]⟩⟩ rfl (by decide) (by decide)).2.2.1
      ⟨some "x", .path ⟨["i32"]⟩⟩ (by decide)
      ⟨.path ⟨["i32"]⟩, {⟨[], "i32"⟩}, []⟩ (by decide) (by decide)⟩

/-- C3: when the typedef's target type converts to a path denoting the
typedef's own qualified name, `get_replacement_typedef` returns the
`InfinitelyRecursiveTypedef` error naming the typedef, and resolution
succeeds only when the converted target does not denote the alias's own
name. -/
theorem get_replacement_typedef_self_referential (name : QualifiedName)
    (ity : ItemType) (deps : Finset QualifiedName) (ann : Annotated)
    (hconv : convert_type ity.ty name.ns .CxxInnerType = .ok ann) :
    (∀ typ, ann.ty = .path typ → QualifiedName.from_type_path typ = some name →
      get_replacement_typedef name ity deps =
        .error ⟨.InfinitelyRecursiveTypedef name, some (.Item name.final)⟩) ∧
    ∀ res, get_replacement_typedef name ity deps = .ok res →
      ∀ typ, ann.ty = .path typ →
        QualifiedName.from_type_path typ ≠ some name := by
  constructor
  · intro typ hty hself
    simp [get_replacement_typedef, remove_bindgen_attrs, hconv, hty, hself]
  · intro res hres typ hty hself
    simp [get_replacement_typedef, remove_bindgen_attrs, hconv, hty, hself]
      at hres

/-- C3 (witness): the alias `A = root::A` is rejected with the
self-referential diagnostic. -/
theorem get_replacement_typedef_self_referential_witness :
    get_replacement_typedef ⟨[], "A"⟩ selfAliasItem ∅ =
      .error ⟨.InfinitelyRecursiveTypedef ⟨[], "A"⟩, some (.Item "A")⟩ :=
  (get_replacement_typedef_self_referential ⟨[], "A"⟩ selfAliasItem ∅
      ⟨.path ⟨["root", "A"]⟩, {⟨[], "A"⟩}, []⟩ (by decide)).1
    ⟨["root", "A"]⟩ rfl (by decide)
